import Mathlib

/-!
Verification of the crop advisory engine of the AI_Crop_Recommendation
repository: the nearest-match classifier, agronomic scorer, fertilizer
dosage planner, profit analyzer and market trend analysis, shallowly
embedded over exact rational arithmetic.

Numeric inputs are modelled as rationals.  The source compares Euclidean
distances through Math.sqrt; since the square root is strictly monotone on
nonnegative reals, the selection loop is embedded on squared distances and
the bridge to the real square-root comparison is proved where a claim
speaks about Euclidean distance itself.
-/

namespace CropAdvisor

/-- Soil profile entered by the user (SoilData in CropPrediction.tsx). -/
structure SoilData where
  temperature : ℚ
  humidity : ℚ
  ph : ℚ
  rainfall : ℚ
  nitrogen : ℚ
  phosphorus : ℚ
  potassium : ℚ
deriving DecidableEq, Repr

/-- One labelled record of the crop_dataset table: a crop label plus the
same seven numeric fields as a soil profile. -/
structure CropRecord where
  crop_label : String
  temperature : ℚ
  humidity : ℚ
  ph : ℚ
  rainfall : ℚ
  nitrogen : ℚ
  phosphorus : ℚ
  potassium : ℚ
deriving DecidableEq, Repr

/-- Squared 7-dimensional Euclidean distance between a query profile and a
dataset record, the quantity under Math.sqrt in predictCropWithML. -/
def dist2 (d : SoilData) (c : CropRecord) : ℚ :=
  (d.temperature - c.temperature) ^ 2 +
  (d.humidity - c.humidity) ^ 2 +
  (d.ph - c.ph) ^ 2 +
  (d.rainfall - c.rainfall) ^ 2 +
  (d.nitrogen - c.nitrogen) ^ 2 +
  (d.phosphorus - c.phosphorus) ^ 2 +
  (d.potassium - c.potassium) ^ 2

/-- One iteration of the forEach loop of predictCropWithML.  The state is
the current bestMatch together with minDistance; the value none stands for
the initial Infinity, against which any finite distance compares smaller.
Comparing squared distances is equivalent to comparing the square roots the
source computes (see dist2_le_iff_sqrt_le below). -/
def nnStep (d : SoilData) (s : CropRecord × Option ℚ) (c : CropRecord) :
    CropRecord × Option ℚ :=
  match s with
  | (_, none) => (c, some (dist2 d c))
  | (b, some m) => if dist2 d c < m then (c, some (dist2 d c)) else (b, some m)

/-- The bestMatch record selected by the distance loop of
predictCropWithML: initialised with cropDataset[0] and minDistance =
Infinity, then folded over the whole dataset.  On the empty dataset the
source dereferences undefined and the thrown error is caught by the
fallback, so no record is produced. -/
def bestMatch (d : SoilData) : List CropRecord → Option CropRecord
  | [] => none
  | c0 :: rest => some (((c0 :: rest).foldl (nnStep d) (c0, none)).1)

/-- The rule-based fallback of predictCropWithML, used when the dataset
cannot be loaded (or the thrown error on an empty dataset is caught). -/
def ruleBasedFallback (d : SoilData) : String :=
  if d.nitrogen > 50 ∧ d.phosphorus > 30 ∧ d.potassium > 40 then "wheat"
  else if d.temperature > 30 ∧ d.humidity > 70 ∧ d.rainfall > 150 then "rice"
  else if d.ph > 6 ∧ d.ph < 7 ∧ d.potassium > 35 then "maize"
  else "cotton"

/-- predictCropWithML: none for the dataset stands for a failed fetch
(DataUnavailable); an empty dataset equally reaches the catch branch. -/
def predictCropWithML (d : SoilData) (dataset : Option (List CropRecord)) :
    String :=
  match dataset with
  | none => ruleBasedFallback d
  | some ds =>
    match bestMatch d ds with
    | none => ruleBasedFallback d
    | some b => b.crop_label

/-- Recursive presentation of the selection loop: scan the remaining
records, replacing the current best exactly on a strictly smaller
(squared) distance. -/
def nnAux (d : SoilData) : CropRecord → List CropRecord → CropRecord
  | b, [] => b
  | b, c :: cs => if dist2 d c < dist2 d b then nnAux d c cs else nnAux d b cs

/-- Risk levels (the low | medium | high string union of the source). -/
inductive RiskLevel
  | low
  | medium
  | high
deriving DecidableEq, Repr

/-- Accumulated risk score of calculateRiskLevel in CropPrediction.tsx. -/
def riskScore (d : SoilData) : ℕ :=
  (if d.ph < 5.5 ∨ d.ph > 8.5 then 2 else 0) +
  (if d.temperature > 35 ∨ d.temperature < 10 then 2 else 0) +
  (if d.humidity < 30 ∨ d.humidity > 90 then 1 else 0) +
  (if d.rainfall < 50 ∨ d.rainfall > 300 then 1 else 0)

/-- calculateRiskLevel: map the accumulated score to a level. -/
def calculateRiskLevel (d : SoilData) : RiskLevel :=
  if riskScore d ≥ 4 then .high
  else if riskScore d ≥ 2 then .medium
  else .low

/-- Math.round on exact rationals: the floor of x + 1/2, which rounds
halves up exactly as JavaScript does.  Stated through the executable
Rat.floor so that concrete instances evaluate; the lemma
mathRound_eq_round below identifies it with the Mathlib round. -/
def mathRound (q : ℚ) : ℤ := Rat.floor (q + 1 / 2)

/-- toLowerCase of the source, written as a structural map over the
characters so that it evaluates on literals. -/
def lowerStr (s : String) : String := String.mk (s.data.map Char.toLower)

/-- The crop-specific multiplicative yield modifier of calculateYield,
keyed by the lower-cased crop name (the switch statement). -/
def cropModifier (d : SoilData) (c : String) : ℚ :=
  if c = "rice" then
    (if d.temperature ≥ 20 ∧ d.temperature ≤ 35 ∧ d.humidity > 60
      then 1.3 else 1) *
    (if d.rainfall > 150 then 1.2 else 1)
  else if c = "wheat" then
    (if d.temperature ≥ 15 ∧ d.temperature ≤ 25 then 1.25 else 1) *
    (if d.nitrogen > 40 then 1.15 else 1)
  else if c = "maize" then
    (if d.temperature ≥ 18 ∧ d.temperature ≤ 32 then 1.2 else 1) *
    (if d.phosphorus > 25 then 1.1 else 1)
  else if c = "cotton" then
    (if d.temperature ≥ 25 ∧ d.temperature ≤ 35 then 1.15 else 1) *
    (if d.potassium > 30 then 1.1 else 1)
  else 1

/-- The universal pH factor applied after the crop-specific modifiers. -/
def phFactor (d : SoilData) : ℚ :=
  if d.ph ≥ 6 ∧ d.ph ≤ 7.5 then 1.15
  else if d.ph < 5.5 ∨ d.ph > 8 then 0.7 else 1

/-- calculateYield: base yield 100 times the accumulated modifier, rounded
to the nearest integer (Math.round and Mathlib round both give
the floor of x + 1/2). -/
def calculateYield (d : SoilData) (cropName : String) : ℤ :=
  mathRound ((100 : ℚ) * (cropModifier d (lowerStr cropName) * phFactor d))

/-- The fixed base profitability table of calculateProfitabilityIndex,
keyed by the lower-cased crop name, default 60. -/
def baseProfitability (c : String) : ℚ :=
  if c = "rice" then 75
  else if c = "wheat" then 70
  else if c = "maize" then 65
  else if c = "cotton" then 80
  else 60

/-- calculateProfitabilityIndex: base score times yieldPrediction / 100,
rounded to the nearest integer. -/
def calculateProfitabilityIndex (cropName : String) (yieldPrediction : ℤ) :
    ℤ :=
  mathRound (baseProfitability (lowerStr cropName) * ((yieldPrediction : ℚ) / 100))

/-- Inputs of the profit calculator (CropInputs in ProfitCalculator.tsx). -/
structure CropInputs where
  cropType : String
  areaInAcres : ℚ
  expectedYield : ℚ
  sellingPrice : ℚ
  seedCost : ℚ
  fertilizerCost : ℚ
  laborCost : ℚ
  irrigationCost : ℚ
  otherCosts : ℚ
deriving DecidableEq, Repr

/-- Numeric fields of ProfitAnalysis.  The advisory message strings built
by calculateProfit are presentational and not modelled. -/
structure ProfitAnalysis where
  totalRevenue : ℚ
  totalCosts : ℚ
  grossProfit : ℚ
  profitMargin : ℚ
  roiPercentage : ℚ
  breakEvenPoint : ℚ
  profitPerAcre : ℚ
  riskAssessment : RiskLevel
deriving DecidableEq, Repr

def totalRevenue (i : CropInputs) : ℚ :=
  i.areaInAcres * i.expectedYield * i.sellingPrice

def totalCosts (i : CropInputs) : ℚ :=
  i.seedCost + i.fertilizerCost + i.laborCost + i.irrigationCost +
    i.otherCosts

/-- calculateProfit of ProfitCalculator.tsx.  Each rate is guarded exactly
as in the source.  Where a guard passes but the denominator of the guarded
division is zero, the source divides by zero (a non-finite JS number);
rational division then denotes 0, so the absence of zero divisions is
analysed separately through ratesGuarded below. -/
def calculateProfit (i : CropInputs) : ProfitAnalysis :=
  let revenue := totalRevenue i
  let costs := totalCosts i
  let gross := revenue - costs
  let margin : ℚ := if revenue > 0 then gross / revenue * 100 else 0
  { totalRevenue := revenue
    totalCosts := costs
    grossProfit := gross
    profitMargin := margin
    roiPercentage := if costs > 0 then gross / costs * 100 else 0
    breakEvenPoint :=
      if i.sellingPrice > 0 then costs / (i.sellingPrice * i.areaInAcres)
      else 0
    profitPerAcre := if i.areaInAcres > 0 then gross / i.areaInAcres else 0
    riskAssessment :=
      if margin < 10 then .high else if margin < 25 then .medium else .low }

/-- The division-safety property claimed for the derived rates: every
division of calculateProfit is reached only with a nonzero denominator,
and a rate whose guard fails is 0. -/
def ratesGuarded (i : CropInputs) : Prop :=
  (totalRevenue i > 0 → totalRevenue i ≠ 0) ∧
  (¬ totalRevenue i > 0 → (calculateProfit i).profitMargin = 0) ∧
  (totalCosts i > 0 → totalCosts i ≠ 0) ∧
  (¬ totalCosts i > 0 → (calculateProfit i).roiPercentage = 0) ∧
  (i.sellingPrice > 0 → i.sellingPrice * i.areaInAcres ≠ 0) ∧
  (¬ i.sellingPrice > 0 → (calculateProfit i).breakEvenPoint = 0) ∧
  (i.areaInAcres > 0 → i.areaInAcres ≠ 0) ∧
  (¬ i.areaInAcres > 0 → (calculateProfit i).profitPerAcre = 0)

/-- Priorities of fertilizer recommendations. -/
inductive Priority
  | high
  | medium
  | low
deriving DecidableEq, Repr

/-- The priorityOrder table of the sort comparator in
FertilizerRecommendation.tsx. -/
def priorityRank : Priority → ℕ
  | .high => 3
  | .medium => 2
  | .low => 1

/-- One FertilizerRecommendation entry. -/
structure FertilizerRec where
  type : String
  amount : String
  applicationMethod : String
  timing : String
  benefits : List String
  priority : Priority
deriving DecidableEq, Repr

/-- Nutrient inputs of FertilizerRecommendation.tsx (FertilizerData). -/
structure FertilizerData where
  nitrogen : ℚ
  phosphorus : ℚ
  potassium : ℚ
  ph : ℚ
  organicMatter : ℚ
  cropType : String
deriving DecidableEq, Repr

def nitrogenRec (d : FertilizerData) : FertilizerRec :=
  { type := "Nitrogen Fertilizer (Urea)"
    amount := toString (mathRound ((40 - d.nitrogen) * 2.5)) ++ " kg/hectare"
    applicationMethod := "Split application: 50% at sowing, 50% at tillering"
    timing := "Pre-sowing and 4-6 weeks after sowing"
    benefits := ["Improved leaf growth", "Better protein content",
      "Enhanced yield"]
    priority := if d.nitrogen < 25 then .high else .medium }

def phosphorusRec (d : FertilizerData) : FertilizerRec :=
  { type := "Phosphorus Fertilizer (DAP)"
    amount := toString (mathRound ((30 - d.phosphorus) * 3)) ++ " kg/hectare"
    applicationMethod := "Band placement near seed furrow"
    timing := "At sowing time"
    benefits := ["Better root development", "Improved flowering",
      "Enhanced seed formation"]
    priority := if d.phosphorus < 15 then .high else .medium }

def potassiumRec (d : FertilizerData) : FertilizerRec :=
  { type := "Potassium Fertilizer (MOP)"
    amount := toString (mathRound ((35 - d.potassium) * 2)) ++ " kg/hectare"
    applicationMethod := "Broadcasting and incorporation"
    timing := "Pre-sowing preparation"
    benefits := ["Disease resistance", "Drought tolerance",
      "Better grain quality"]
    priority := if d.potassium < 20 then .high else .medium }

def limeRec (d : FertilizerData) : FertilizerRec :=
  { type := "Lime Application"
    amount := toString (mathRound ((6.5 - d.ph) * 500)) ++ " kg/hectare"
    applicationMethod := "Broadcasting and deep incorporation"
    timing := "2-3 months before sowing"
    benefits := ["pH correction", "Better nutrient availability",
      "Improved soil structure"]
    priority := .high }

def gypsumRec (d : FertilizerData) : FertilizerRec :=
  { type := "Gypsum Application"
    amount := toString (mathRound ((d.ph - 7.5) * 300)) ++ " kg/hectare"
    applicationMethod := "Surface application and irrigation"
    timing := "Before sowing season"
    benefits := ["pH reduction", "Calcium supply",
      "Soil structure improvement"]
    priority := .medium }

def organicRec : FertilizerRec :=
  { type := "Organic Compost"
    amount := "2-3 tons/hectare"
    applicationMethod := "Broadcasting and incorporation"
    timing := "During land preparation"
    benefits := ["Soil health improvement", "Water retention",
      "Microbial activity"]
    priority := .medium }

def micronutrientRec : FertilizerRec :=
  { type := "Micronutrient Mix (Zn, Fe, Mn, B)"
    amount := "5-10 kg/hectare"
    applicationMethod := "Soil application or foliar spray"
    timing := "At vegetative growth stage"
    benefits := ["Enzyme activation", "Better photosynthesis",
      "Quality improvement"]
    priority := .low }

/-- The recommendation list of generateRecommendations in rule-evaluation
order, before sorting. -/
def buildRecs (d : FertilizerData) : List FertilizerRec :=
  (if d.nitrogen < 40 then [nitrogenRec d] else []) ++
  (if d.phosphorus < 30 then [phosphorusRec d] else []) ++
  (if d.potassium < 35 then [potassiumRec d] else []) ++
  (if d.ph < 6 then [limeRec d]
    else if d.ph > 8 then [gypsumRec d] else []) ++
  (if d.organicMatter < 3 then [organicRec] else []) ++
  [micronutrientRec]

/-- Stable insertion realising Array.prototype.sort with the comparator
on priorityOrder of b minus priorityOrder of a: an element moves past
entries of strictly greater rank and lands before the first entry of rank
at most its own, preserving the relative order of equal priorities (the
sort is stable per the ECMAScript specification). -/
def insertRec (a : FertilizerRec) : List FertilizerRec → List FertilizerRec
  | [] => [a]
  | b :: bs =>
    if priorityRank a.priority < priorityRank b.priority
    then b :: insertRec a bs
    else a :: b :: bs

def sortRecs : List FertilizerRec → List FertilizerRec
  | [] => []
  | a :: rest => insertRec a (sortRecs rest)

/-- generateRecommendations: build the rule results, then sort by priority
rank descending. -/
def generateRecommendations (d : FertilizerData) : List FertilizerRec :=
  sortRecs (buildRecs d)

/-- Entries of one priority, in order of appearance. -/
def filterPr (p : Priority) (l : List FertilizerRec) : List FertilizerRec :=
  l.filter (fun r => decide (r.priority = p))

/-- Trend of the market profitability analysis. -/
inductive Trend
  | up
  | down
  | stable
deriving DecidableEq, Repr

/-- One market_prices row; the observation date is an integer timestamp
(getTime of the source). -/
structure MarketPrice where
  crop_name : String
  price_per_kg : ℚ
  market_location : String
  price_date : ℤ
deriving DecidableEq, Repr

/-- Stable insertion for sorting price records by date descending, the
comparator getTime of b minus getTime of a. -/
def insertByDate (a : MarketPrice) : List MarketPrice → List MarketPrice
  | [] => [a]
  | b :: bs =>
    if a.price_date < b.price_date then b :: insertByDate a bs
    else a :: b :: bs

def sortByDateDesc : List MarketPrice → List MarketPrice
  | [] => []
  | a :: rest => insertByDate a (sortByDateDesc rest)

/-- Trend computation of analyzeProfitability for one crop group: the
latest price against the average of up to three prior records, the
denominator clamped below by 1 (so the average of no prior records
is 0). -/
def analyzeTrend (cropPrices : List MarketPrice) : Trend :=
  let sorted := sortByDateDesc cropPrices
  let latestPrice : ℚ :=
    match sorted with
    | [] => 0
    | r :: _ => r.price_per_kg
  let older := (sorted.drop 1).take 3
  let olderAvg : ℚ :=
    (older.map (fun r => r.price_per_kg)).sum /
      ((max 1 older.length : ℕ) : ℚ)
  if latestPrice > olderAvg * 1.05 then .up
  else if latestPrice < olderAvg * 0.95 then .down
  else .stable

theorem mathRound_eq_round (q : ℚ) : mathRound q = round q := by
  rw [round_eq]
  unfold mathRound
  rw [Rat.floor_def' (q + 1 / 2), Rat.floor_def]

theorem mathRound_eq_of (q : ℚ) (n : ℤ) (h1 : (n : ℚ) ≤ q + 1 / 2)
    (h2 : q + 1 / 2 < n + 1) : mathRound q = n := by
  rw [mathRound_eq_round, round_eq]
  exact Int.floor_eq_iff.mpr ⟨h1, by exact_mod_cast h2⟩

theorem mathRound_le (q : ℚ) (n : ℤ) (h : q + 1 / 2 < (n : ℚ) + 1) :
    mathRound q ≤ n := by
  rw [mathRound_eq_round, round_eq]
  have h2 : ⌊q + 1 / 2⌋ < n + 1 := Int.floor_lt.mpr (by push_cast; linarith)
  omega

theorem mathRound_nonneg (q : ℚ) (h : 0 ≤ q) : 0 ≤ mathRound q := by
  rw [mathRound_eq_round, round_eq]
  exact Int.le_floor.mpr (by push_cast; linarith)

/-- Bounding skeleton for the profitability index: if the yield argument
q is between 0 and M, Y bounds mathRound M from above, and the base times
Y over 100 stays below 134.5, then the index is between 0 and 134. -/
theorem mathRound_idx_bounds (B M q : ℚ) (Y : ℤ) (hB : 0 < B) (hq0 : 0 ≤ q)
    (hqM : q ≤ M) (hY : M + 1 / 2 < (Y : ℚ) + 1)
    (hBY : B * ((Y : ℚ) / 100) + 1 / 2 < 135) :
    0 ≤ mathRound (B * ((mathRound q : ℚ) / 100)) ∧
    mathRound (B * ((mathRound q : ℚ) / 100)) ≤ 134 := by
  have hy0 : 0 ≤ mathRound q := mathRound_nonneg q hq0
  have hyY : mathRound q ≤ Y := mathRound_le q Y (by linarith)
  have hy0Q : (0 : ℚ) ≤ (mathRound q : ℚ) := by exact_mod_cast hy0
  have hyYQ : ((mathRound q : ℚ)) ≤ (Y : ℚ) := by exact_mod_cast hyY
  constructor
  · exact mathRound_nonneg _
      (mul_nonneg (le_of_lt hB) (div_nonneg hy0Q (by norm_num)))
  · refine mathRound_le _ 134 ?_
    have hmono : B * ((mathRound q : ℚ) / 100) ≤ B * ((Y : ℚ) / 100) := by
      apply mul_le_mul_of_nonneg_left _ (le_of_lt hB)
      exact (div_le_div_iff_of_pos_right (by norm_num)).mpr hyYQ
    push_cast
    linarith

theorem nnStep_none (d : SoilData) (b c : CropRecord) :
    nnStep d (b, none) c = (c, some (dist2 d c)) := rfl

theorem nnStep_some (d : SoilData) (b c : CropRecord) (m : ℚ) :
    nnStep d (b, some m) c =
      if dist2 d c < m then (c, some (dist2 d c)) else (b, some m) := rfl

theorem nnAux_nil (d : SoilData) (b : CropRecord) : nnAux d b [] = b := rfl

theorem nnAux_cons (d : SoilData) (b c : CropRecord) (cs : List CropRecord) :
    nnAux d b (c :: cs) =
      if dist2 d c < dist2 d b then nnAux d c cs else nnAux d b cs := rfl

theorem foldl_nnStep_eq_nnAux (d : SoilData) :
    ∀ (l : List CropRecord) (b : CropRecord),
      (l.foldl (nnStep d) (b, some (dist2 d b))).1 = nnAux d b l := by
  intro l
  induction l with
  | nil => intro b; rfl
  | cons c cs ih =>
    intro b
    by_cases h : dist2 d c < dist2 d b
    · rw [List.foldl_cons, nnStep_some, if_pos h, nnAux_cons, if_pos h]
      exact ih c
    · rw [List.foldl_cons, nnStep_some, if_neg h, nnAux_cons, if_neg h]
      exact ih b

theorem bestMatch_cons (d : SoilData) (c0 : CropRecord)
    (rest : List CropRecord) :
    bestMatch d (c0 :: rest) = some (nnAux d c0 rest) := by
  show some ((List.foldl (nnStep d) (nnStep d (c0, none) c0) rest).1) = _
  rw [nnStep_none]
  exact congrArg some (foldl_nnStep_eq_nnAux d rest c0)

theorem nnAux_min (d : SoilData) :
    ∀ (l : List CropRecord) (b : CropRecord),
      dist2 d (nnAux d b l) ≤ dist2 d b ∧
      ∀ x ∈ l, dist2 d (nnAux d b l) ≤ dist2 d x := by
  intro l
  induction l with
  | nil => intro b; exact ⟨le_refl _, by simp⟩
  | cons c cs ih =>
    intro b
    by_cases h : dist2 d c < dist2 d b
    · have hc := ih c
      rw [nnAux_cons, if_pos h]
      refine ⟨le_of_lt (lt_of_le_of_lt hc.1 h), ?_⟩
      intro x hx
      rcases List.mem_cons.mp hx with hx | hx
      · subst hx; exact hc.1
      · exact hc.2 x hx
    · have hb := ih b
      have hbc : dist2 d b ≤ dist2 d c := le_of_not_lt h
      rw [nnAux_cons, if_neg h]
      refine ⟨hb.1, ?_⟩
      intro x hx
      rcases List.mem_cons.mp hx with hx | hx
      · subst hx; exact le_trans hb.1 hbc
      · exact hb.2 x hx

theorem nnAux_first_min (d : SoilData) :
    ∀ (l : List CropRecord) (b : CropRecord),
      ∃ pre post, b :: l = pre ++ nnAux d b l :: post ∧
        ∀ x ∈ pre, dist2 d (nnAux d b l) < dist2 d x := by
  intro l
  induction l with
  | nil =>
    intro b
    exact ⟨[], [], by rw [nnAux_nil]; rfl, by simp⟩
  | cons c cs ih =>
    intro b
    by_cases h : dist2 d c < dist2 d b
    · obtain ⟨pre, post, hsplit, hpre⟩ := ih c
      rw [nnAux_cons, if_pos h]
      refine ⟨b :: pre, post, ?_, ?_⟩
      · rw [List.cons_append, ← hsplit]
      · intro x hx
        rcases List.mem_cons.mp hx with hx | hx
        · subst hx
          exact lt_of_le_of_lt (nnAux_min d cs c).1 h
        · exact hpre x hx
    · obtain ⟨pre, post, hsplit, hpre⟩ := ih b
      have hbc : dist2 d b ≤ dist2 d c := le_of_not_lt h
      rw [nnAux_cons, if_neg h]
      cases pre with
      | nil =>
        rw [List.nil_append] at hsplit
        injection hsplit with hb htail
        refine ⟨[], c :: cs, ?_, by simp⟩
        rw [List.nil_append, ← hb]
      | cons p pre2 =>
        rw [List.cons_append] at hsplit
        injection hsplit with hb htail
        refine ⟨b :: c :: pre2, post, ?_, ?_⟩
        · rw [List.cons_append, List.cons_append, ← htail]
        · have hpb : dist2 d (nnAux d b cs) < dist2 d b := by
            have hp := hpre p (by simp)
            rwa [← hb] at hp
          intro x hx
          rcases List.mem_cons.mp hx with hx | hx
          · subst hx; exact hpb
          · rcases List.mem_cons.mp hx with hx | hx
            · subst hx; exact lt_of_lt_of_le hpb hbc
            · exact hpre x (by simp [hx])

/-- The comparison between the square roots the source actually computes
agrees with the comparison between the squared distances the loop is
embedded with. -/
theorem sqrt_dist2_not_lt (d : SoilData) (r x : CropRecord)
    (h : dist2 d r ≤ dist2 d x) :
    ¬ Real.sqrt ((dist2 d x : ℚ) : ℝ) < Real.sqrt ((dist2 d r : ℚ) : ℝ) := by
  have hc : ((dist2 d r : ℚ) : ℝ) ≤ ((dist2 d x : ℚ) : ℝ) := by
    exact_mod_cast h
  exact not_lt.mpr (Real.sqrt_le_sqrt hc)

/-- C1.  On every non-empty dataset the distance loop of predictCropWithML
returns the label of a dataset record, no record lies strictly closer in
7-dimensional Euclidean distance, and on exact ties the earliest record of
the dataset wins. -/
theorem classify_nearest_neighbor (d : SoilData) (ds : List CropRecord)
    (hne : ds ≠ []) :
    ∃ r pre post,
      bestMatch d ds = some r ∧
      predictCropWithML d (some ds) = r.crop_label ∧
      ds = pre ++ r :: post ∧
      (∀ x ∈ ds, ¬ Real.sqrt ((dist2 d x : ℚ) : ℝ) <
        Real.sqrt ((dist2 d r : ℚ) : ℝ)) ∧
      ∀ x ∈ pre, dist2 d r < dist2 d x := by
  cases ds with
  | nil => exact absurd rfl hne
  | cons c0 rest =>
    obtain ⟨pre, post, hsplit, hpre⟩ := nnAux_first_min d rest c0
    refine ⟨nnAux d c0 rest, pre, post, bestMatch_cons d c0 rest, ?_, hsplit, ?_, hpre⟩
    · simp [predictCropWithML, bestMatch_cons]
    · intro x hx
      have hmin := nnAux_min d rest c0
      rcases List.mem_cons.mp hx with hx | hx
      · subst hx; exact sqrt_dist2_not_lt d _ _ hmin.1
      · exact sqrt_dist2_not_lt d _ _ (hmin.2 x hx)

/-- Witness for C1 on a concrete two-record dataset. -/
theorem classify_nearest_neighbor_witness :
    ([⟨"rice", 25, 80, 6, 200, 40, 30, 35⟩,
      ⟨"wheat", 20, 60, 7, 100, 50, 35, 40⟩] : List CropRecord) ≠ [] ∧
    ∃ r pre post,
      bestMatch ⟨24, 78, 6, 190, 40, 30, 35⟩
        [⟨"rice", 25, 80, 6, 200, 40, 30, 35⟩,
         ⟨"wheat", 20, 60, 7, 100, 50, 35, 40⟩] = some r ∧
      predictCropWithML ⟨24, 78, 6, 190, 40, 30, 35⟩
        (some [⟨"rice", 25, 80, 6, 200, 40, 30, 35⟩,
               ⟨"wheat", 20, 60, 7, 100, 50, 35, 40⟩]) = r.crop_label ∧
      [⟨"rice", 25, 80, 6, 200, 40, 30, 35⟩,
       ⟨"wheat", 20, 60, 7, 100, 50, 35, 40⟩] = pre ++ r :: post ∧
      (∀ x ∈ [(⟨"rice", 25, 80, 6, 200, 40, 30, 35⟩ : CropRecord),
              ⟨"wheat", 20, 60, 7, 100, 50, 35, 40⟩],
        ¬ Real.sqrt ((dist2 ⟨24, 78, 6, 190, 40, 30, 35⟩ x : ℚ) : ℝ) <
          Real.sqrt ((dist2 ⟨24, 78, 6, 190, 40, 30, 35⟩ r : ℚ) : ℝ)) ∧
      ∀ x ∈ pre, dist2 ⟨24, 78, 6, 190, 40, 30, 35⟩ r <
        dist2 ⟨24, 78, 6, 190, 40, 30, 35⟩ x :=
  ⟨by decide,
   classify_nearest_neighbor ⟨24, 78, 6, 190, 40, 30, 35⟩
     [⟨"rice", 25, 80, 6, 200, 40, 30, 35⟩,
      ⟨"wheat", 20, 60, 7, 100, 50, 35, 40⟩] (by decide)⟩

/-- C2.  For area 1, expected yield 20, selling price 2500 and any five
cost components summing to 30000, the analyzer returns revenue 50000,
costs 30000, gross profit 20000, margin 40 percent, ROI (20000/30000)*100
and a low risk assessment. -/
theorem analyze_standard_inputs (ct : String) (sc fc lc ic oc : ℚ)
    (hsum : sc + fc + lc + ic + oc = 30000) :
    (calculateProfit ⟨ct, 1, 20, 2500, sc, fc, lc, ic, oc⟩).totalRevenue
        = 50000 ∧
    (calculateProfit ⟨ct, 1, 20, 2500, sc, fc, lc, ic, oc⟩).totalCosts
        = 30000 ∧
    (calculateProfit ⟨ct, 1, 20, 2500, sc, fc, lc, ic, oc⟩).grossProfit
        = 20000 ∧
    (calculateProfit ⟨ct, 1, 20, 2500, sc, fc, lc, ic, oc⟩).profitMargin
        = 40 ∧
    (calculateProfit ⟨ct, 1, 20, 2500, sc, fc, lc, ic, oc⟩).roiPercentage
        = 20000 / 30000 * 100 ∧
    (calculateProfit ⟨ct, 1, 20, 2500, sc, fc, lc, ic, oc⟩).riskAssessment
        = .low := by
  have hr : totalRevenue ⟨ct, 1, 20, 2500, sc, fc, lc, ic, oc⟩ = 50000 := by
    simp only [totalRevenue]; norm_num
  have hc : totalCosts ⟨ct, 1, 20, 2500, sc, fc, lc, ic, oc⟩ = 30000 := hsum
  simp only [calculateProfit, hr, hc]
  norm_num

/-- Witness for C2 at the source's default cost components. -/
theorem analyze_standard_inputs_witness :
    ((3000 : ℚ) + 8000 + 12000 + 5000 + 2000 = 30000) ∧
    ((calculateProfit
        ⟨"wheat", 1, 20, 2500, 3000, 8000, 12000, 5000, 2000⟩).totalRevenue
        = 50000 ∧
    (calculateProfit
        ⟨"wheat", 1, 20, 2500, 3000, 8000, 12000, 5000, 2000⟩).totalCosts
        = 30000 ∧
    (calculateProfit
        ⟨"wheat", 1, 20, 2500, 3000, 8000, 12000, 5000, 2000⟩).grossProfit
        = 20000 ∧
    (calculateProfit
        ⟨"wheat", 1, 20, 2500, 3000, 8000, 12000, 5000, 2000⟩).profitMargin
        = 40 ∧
    (calculateProfit
        ⟨"wheat", 1, 20, 2500, 3000, 8000, 12000, 5000, 2000⟩).roiPercentage
        = 20000 / 30000 * 100 ∧
    (calculateProfit
        ⟨"wheat", 1, 20, 2500, 3000, 8000, 12000, 5000, 2000⟩).riskAssessment
        = .low) :=
  ⟨by norm_num,
   analyze_standard_inputs "wheat" 3000 8000 12000 5000 2000 (by norm_num)⟩

/-- C3 counterexample.  With selling price 1 and area 0 the break-even
guard passes while its denominator sellingPrice * areaInAcres is zero, so
the rates are not all computed with nonzero denominators. -/
theorem rates_guarded_cex :
    ¬ ratesGuarded ⟨"wheat", 0, 0, 1, 5, 0, 0, 0, 0⟩ := by
  intro h
  exact h.2.2.2.2.1 (by norm_num) (by norm_num)

/-- C3 amended.  For every input with positive area (the data-model
invariant on acreage) every division of calculateProfit is reached only
with a nonzero denominator and every unguarded rate is zero. -/
theorem rates_guarded_of_area_pos (i : CropInputs)
    (harea : 0 < i.areaInAcres) : ratesGuarded i := by
  unfold ratesGuarded
  refine ⟨fun h => ne_of_gt h, ?_, fun h => ne_of_gt h, ?_,
    fun hp => ne_of_gt (mul_pos hp harea), ?_, fun h => ne_of_gt h, ?_⟩
  · intro h; simp only [calculateProfit]; rw [if_neg h]
  · intro h; simp only [calculateProfit]; rw [if_neg h]
  · intro h; simp only [calculateProfit]; rw [if_neg h]
  · intro h; simp only [calculateProfit]; rw [if_neg h]

/-- Witness for the amended C3 at the source's default inputs. -/
theorem rates_guarded_witness :
    (0 : ℚ) <
      (⟨"wheat", 1, 20, 2500, 3000, 8000, 12000, 5000, 2000⟩ :
        CropInputs).areaInAcres ∧
    ratesGuarded ⟨"wheat", 1, 20, 2500, 3000, 8000, 12000, 5000, 2000⟩ :=
  ⟨by norm_num,
   rates_guarded_of_area_pos
     ⟨"wheat", 1, 20, 2500, 3000, 8000, 12000, 5000, 2000⟩ (by norm_num)⟩

/-- C4 counterexample.  For rice on a profile hitting every bonus
condition the yield index is 179 and the profitability index is 134,
outside the claimed range 0 to 100. -/
theorem profitability_index_cex :
    calculateYield ⟨25, 70, 7, 200, 0, 0, 0⟩ "rice" = 179 ∧
    calculateProfitabilityIndex "rice"
      (calculateYield ⟨25, 70, 7, 200, 0, 0, 0⟩ "rice") = 134 ∧
    ¬ calculateProfitabilityIndex "rice"
      (calculateYield ⟨25, 70, 7, 200, 0, 0, 0⟩ "rice") ≤ 100 := by
  have hY : calculateYield ⟨25, 70, 7, 200, 0, 0, 0⟩ "rice" = 179 := by
    unfold calculateYield
    rw [show lowerStr "rice" = "rice" from rfl]
    have hm : cropModifier ⟨25, 70, 7, 200, 0, 0, 0⟩ "rice" *
        phFactor ⟨25, 70, 7, 200, 0, 0, 0⟩ = 1.794 := by
      unfold cropModifier phFactor
      norm_num
    rw [hm]
    exact mathRound_eq_of _ 179 (by norm_num) (by norm_num)
  have hI : calculateProfitabilityIndex "rice" 179 = 134 := by
    unfold calculateProfitabilityIndex
    rw [show lowerStr "rice" = "rice" from rfl]
    rw [show baseProfitability "rice" = 75 from rfl]
    exact mathRound_eq_of _ 134 (by push_cast; norm_num)
      (by push_cast; norm_num)
  refine ⟨hY, ?_, ?_⟩
  · rw [hY]; exact hI
  · rw [hY, hI]; norm_num

/-- C4 amended.  For every soil profile and crop label the profitability
index lies between 0 and 134 (the maximum, attained by rice at yield
index 179). -/
theorem profitability_index_bounds (d : SoilData) (cropName : String) :
    0 ≤ calculateProfitabilityIndex cropName (calculateYield d cropName) ∧
    calculateProfitabilityIndex cropName (calculateYield d cropName)
      ≤ 134 := by
  have hph : 0 < phFactor d ∧ phFactor d ≤ 1.15 := by
    unfold phFactor
    constructor <;> split_ifs <;> norm_num
  unfold calculateProfitabilityIndex calculateYield
  by_cases h1 : lowerStr cropName = "rice"
  · rw [h1, show baseProfitability "rice" = 75 from rfl]
    have hcm : 0 < cropModifier d "rice" ∧ cropModifier d "rice" ≤ 1.56 := by
      unfold cropModifier
      rw [if_pos rfl]
      constructor <;> split_ifs <;> norm_num
    have hprod : cropModifier d "rice" * phFactor d ≤ 1.56 * 1.15 :=
      mul_le_mul hcm.2 hph.2 (le_of_lt hph.1) (by norm_num)
    refine mathRound_idx_bounds 75 179.4 _ 179 (by norm_num)
      (mul_nonneg (by norm_num) (le_of_lt (mul_pos hcm.1 hph.1)))
      (by nlinarith) (by norm_num) (by push_cast; norm_num)
  · by_cases h2 : lowerStr cropName = "wheat"
    · rw [h2, show baseProfitability "wheat" = 70 from rfl]
      have hcm : 0 < cropModifier d "wheat" ∧
          cropModifier d "wheat" ≤ 1.4375 := by
        unfold cropModifier
        rw [if_neg (by decide), if_pos rfl]
        constructor <;> split_ifs <;> norm_num
      have hprod : cropModifier d "wheat" * phFactor d ≤ 1.4375 * 1.15 :=
        mul_le_mul hcm.2 hph.2 (le_of_lt hph.1) (by norm_num)
      refine mathRound_idx_bounds 70 165.3125 _ 165 (by norm_num)
        (mul_nonneg (by norm_num) (le_of_lt (mul_pos hcm.1 hph.1)))
        (by nlinarith) (by norm_num) (by push_cast; norm_num)
    · by_cases h3 : lowerStr cropName = "maize"
      · rw [h3, show baseProfitability "maize" = 65 from rfl]
        have hcm : 0 < cropModifier d "maize" ∧
            cropModifier d "maize" ≤ 1.32 := by
          unfold cropModifier
          rw [if_neg (by decide), if_neg (by decide), if_pos rfl]
          constructor <;> split_ifs <;> norm_num
        have hprod : cropModifier d "maize" * phFactor d ≤ 1.32 * 1.15 :=
          mul_le_mul hcm.2 hph.2 (le_of_lt hph.1) (by norm_num)
        refine mathRound_idx_bounds 65 151.8 _ 152 (by norm_num)
          (mul_nonneg (by norm_num) (le_of_lt (mul_pos hcm.1 hph.1)))
          (by nlinarith) (by norm_num) (by push_cast; norm_num)
      · by_cases h4 : lowerStr cropName = "cotton"
        · rw [h4, show baseProfitability "cotton" = 80 from rfl]
          have hcm : 0 < cropModifier d "cotton" ∧
              cropModifier d "cotton" ≤ 1.265 := by
            unfold cropModifier
            rw [if_neg (by decide), if_neg (by decide), if_neg (by decide),
              if_pos rfl]
            constructor <;> split_ifs <;> norm_num
          have hprod : cropModifier d "cotton" * phFactor d ≤ 1.265 * 1.15 :=
            mul_le_mul hcm.2 hph.2 (le_of_lt hph.1) (by norm_num)
          refine mathRound_idx_bounds 80 145.475 _ 145 (by norm_num)
            (mul_nonneg (by norm_num) (le_of_lt (mul_pos hcm.1 hph.1)))
            (by nlinarith) (by norm_num) (by push_cast; norm_num)
        · have hbase : baseProfitability (lowerStr cropName) = 60 := by
            unfold baseProfitability
            rw [if_neg h1, if_neg h2, if_neg h3, if_neg h4]
          have hcm : cropModifier d (lowerStr cropName) = 1 := by
            unfold cropModifier
            rw [if_neg h1, if_neg h2, if_neg h3, if_neg h4]
          rw [hbase, hcm]
          have hprod : 1 * phFactor d ≤ 1.15 := by
            rw [one_mul]; exact hph.2
          refine mathRound_idx_bounds 60 115 _ 115 (by norm_num)
            (mul_nonneg (by norm_num) (le_of_lt (by
              rw [one_mul]; exact hph.1)))
            (by nlinarith) (by norm_num) (by push_cast; norm_num)

/-- C7.  The accumulated risk score is monotone in the distance of pH
outside the interval from 5.5 to 8.5: with all other fields fixed, moving
pH from inside to outside, or further outside in the same direction,
never decreases the score. -/
theorem risk_score_ph_monotone (d : SoilData) (p1 p2 : ℚ)
    (h : (p1 < 5.5 ∧ p2 ≤ p1) ∨ (8.5 < p1 ∧ p1 ≤ p2) ∨
      (5.5 ≤ p1 ∧ p1 ≤ 8.5 ∧ (p2 < 5.5 ∨ 8.5 < p2))) :
    riskScore { d with ph := p1 } ≤ riskScore { d with ph := p2 } := by
  have hph : (if p1 < 5.5 ∨ p1 > 8.5 then 2 else 0) ≤
      (if p2 < 5.5 ∨ p2 > 8.5 then (2 : ℕ) else 0) := by
    rcases h with ⟨h1, h2⟩ | ⟨h1, h2⟩ | ⟨h1, h2, h3⟩
    · rw [if_pos (Or.inl h1), if_pos (Or.inl (lt_of_le_of_lt h2 h1))]
    · rw [if_pos (Or.inr h1), if_pos (Or.inr (lt_of_lt_of_le h1 h2))]
    · have hin : ¬ (p1 < 5.5 ∨ p1 > 8.5) := by
        push_neg
        exact ⟨h1, h2⟩
      rw [if_neg hin]
      exact Nat.zero_le _
  simp only [riskScore]
  exact Nat.add_le_add (Nat.add_le_add (Nat.add_le_add hph (le_refl _))
    (le_refl _)) (le_refl _)

/-- Witness for C7: pushing pH from 5 further down to 4. -/
theorem risk_score_ph_monotone_witness :
    (((5 : ℚ) < 5.5 ∧ (4 : ℚ) ≤ 5) ∨ ((8.5 : ℚ) < 5 ∧ (5 : ℚ) ≤ 4) ∨
      ((5.5 : ℚ) ≤ 5 ∧ (5 : ℚ) ≤ 8.5 ∧ ((4 : ℚ) < 5.5 ∨ (8.5 : ℚ) < 4))) ∧
    riskScore { (⟨25, 65, 6.5, 120, 40, 25, 30⟩ : SoilData) with ph := 5 } ≤
      riskScore { (⟨25, 65, 6.5, 120, 40, 25, 30⟩ : SoilData) with ph := 4 } :=
  ⟨Or.inl ⟨by norm_num, by norm_num⟩,
   risk_score_ph_monotone ⟨25, 65, 6.5, 120, 40, 25, 30⟩ 5 4
     (Or.inl ⟨by norm_num, by norm_num⟩)⟩

/-- C8.  When the dataset cannot be obtained the classifier recovers with
the rule-based threshold cascade, whose label is always one of wheat,
rice, maize or cotton. -/
theorem fallback_label_closed_set (d : SoilData) :
    predictCropWithML d none ∈ (["wheat", "rice", "maize", "cotton"] :
      List String) := by
  show ruleBasedFallback d ∈ _
  unfold ruleBasedFallback
  split_ifs <;> simp

theorem insertRec_nil (a : FertilizerRec) : insertRec a [] = [a] := rfl

theorem insertRec_cons (a b : FertilizerRec) (bs : List FertilizerRec) :
    insertRec a (b :: bs) =
      if priorityRank a.priority < priorityRank b.priority
      then b :: insertRec a bs
      else a :: b :: bs := rfl

theorem sortRecs_nil : sortRecs [] = [] := rfl

theorem sortRecs_cons (a : FertilizerRec) (l : List FertilizerRec) :
    sortRecs (a :: l) = insertRec a (sortRecs l) := rfl

theorem mem_insertRec (a x : FertilizerRec) (l : List FertilizerRec) :
    x ∈ insertRec a l ↔ x = a ∨ x ∈ l := by
  induction l with
  | nil => simp [insertRec_nil]
  | cons b bs ih =>
    rw [insertRec_cons]
    split_ifs with h
    · simp only [List.mem_cons, ih]
      tauto
    · simp only [List.mem_cons]

theorem mem_sortRecs (x : FertilizerRec) (l : List FertilizerRec) :
    x ∈ sortRecs l ↔ x ∈ l := by
  induction l with
  | nil => rw [sortRecs_nil]
  | cons a rest ih =>
    rw [sortRecs_cons, mem_insertRec]
    simp only [List.mem_cons, ih]

theorem pairwise_insertRec (a : FertilizerRec) (l : List FertilizerRec)
    (hl : l.Pairwise
      (fun x y => priorityRank y.priority ≤ priorityRank x.priority)) :
    (insertRec a l).Pairwise
      (fun x y => priorityRank y.priority ≤ priorityRank x.priority) := by
  induction l with
  | nil => simp [insertRec_nil]
  | cons b bs ih =>
    rcases List.pairwise_cons.mp hl with ⟨hb, hbs⟩
    rw [insertRec_cons]
    split_ifs with h
    · refine List.pairwise_cons.mpr ⟨?_, ih hbs⟩
      intro x hx
      rcases (mem_insertRec a x bs).mp hx with rfl | hx
      · exact le_of_lt h
      · exact hb x hx
    · refine List.pairwise_cons.mpr ⟨?_, hl⟩
      intro x hx
      rcases List.mem_cons.mp hx with rfl | hx
      · exact le_of_not_lt h
      · exact le_trans (hb x hx) (le_of_not_lt h)

theorem pairwise_sortRecs (l : List FertilizerRec) :
    (sortRecs l).Pairwise
      (fun x y => priorityRank y.priority ≤ priorityRank x.priority) := by
  induction l with
  | nil => rw [sortRecs_nil]; exact List.Pairwise.nil
  | cons a rest ih =>
    rw [sortRecs_cons]
    exact pairwise_insertRec a _ ih

theorem filterPr_cons (p : Priority) (a : FertilizerRec)
    (l : List FertilizerRec) :
    filterPr p (a :: l) =
      if a.priority = p then a :: filterPr p l else filterPr p l := by
  unfold filterPr
  by_cases h : a.priority = p
  · simp [List.filter_cons, h]
  · simp [List.filter_cons, h]

theorem filterPr_insertRec (p : Priority) (a : FertilizerRec)
    (l : List FertilizerRec) :
    filterPr p (insertRec a l) =
      if a.priority = p then a :: filterPr p l else filterPr p l := by
  induction l with
  | nil =>
    rw [insertRec_nil, filterPr_cons]
  | cons b bs ih =>
    rw [insertRec_cons]
    by_cases hlt : priorityRank a.priority < priorityRank b.priority
    · rw [if_pos hlt, filterPr_cons, ih]
      by_cases ha : a.priority = p <;> by_cases hb : b.priority = p
      · exfalso
        rw [ha, hb] at hlt
        exact lt_irrefl _ hlt
      · simp [filterPr_cons, ha, hb]
      · simp [filterPr_cons, ha, hb]
      · simp [filterPr_cons, ha, hb]
    · rw [if_neg hlt, filterPr_cons]

theorem filterPr_sortRecs (p : Priority) (l : List FertilizerRec) :
    filterPr p (sortRecs l) = filterPr p l := by
  induction l with
  | nil => rw [sortRecs_nil]
  | cons a rest ih =>
    rw [sortRecs_cons, filterPr_insertRec, ih, filterPr_cons]

/-- C5.  For every nutrient input, the planner's output contains the
micronutrient baseline entry, which has priority low; the output is
sorted descending by priority rank (high 3, medium 2, low 1); and the
sort is stable: within each priority the entries keep the order in which
the rules emitted them. -/
theorem plan_micronutrient_sorted_stable (d : FertilizerData) :
    micronutrientRec ∈ generateRecommendations d ∧
    micronutrientRec.priority = .low ∧
    (generateRecommendations d).Pairwise
      (fun x y => priorityRank y.priority ≤ priorityRank x.priority) ∧
    ∀ p, filterPr p (generateRecommendations d) =
      filterPr p (buildRecs d) := by
  refine ⟨?_, rfl, pairwise_sortRecs _, fun p => filterPr_sortRecs p _⟩
  have hmem : micronutrientRec ∈ buildRecs d := by
    unfold buildRecs
    simp
  exact (mem_sortRecs _ _).mpr hmem

/-- C6.  For nitrogen 20, phosphorus 10, potassium 15, pH 5 and organic
matter 2 the planner emits exactly six entries: nitrogen, phosphorus,
potassium and lime at high priority, organic compost at medium,
micronutrient mix at low; the sorted output lists all high entries before
the medium entry and the medium entry before the low entry. -/
theorem plan_six_recs :
    (generateRecommendations ⟨20, 10, 15, 5, 2, "wheat"⟩).map
        (fun r => (r.type, r.priority)) =
      [("Nitrogen Fertilizer (Urea)", .high),
       ("Phosphorus Fertilizer (DAP)", .high),
       ("Potassium Fertilizer (MOP)", .high),
       ("Lime Application", .high),
       ("Organic Compost", .medium),
       ("Micronutrient Mix (Zn, Fe, Mn, B)", .low)] ∧
    (generateRecommendations ⟨20, 10, 15, 5, 2, "wheat"⟩).length = 6 ∧
    (generateRecommendations ⟨20, 10, 15, 5, 2, "wheat"⟩).Pairwise
      (fun x y => priorityRank y.priority ≤ priorityRank x.priority) := by
  have hb : buildRecs ⟨20, 10, 15, 5, 2, "wheat"⟩ =
      [nitrogenRec ⟨20, 10, 15, 5, 2, "wheat"⟩,
       phosphorusRec ⟨20, 10, 15, 5, 2, "wheat"⟩,
       potassiumRec ⟨20, 10, 15, 5, 2, "wheat"⟩,
       limeRec ⟨20, 10, 15, 5, 2, "wheat"⟩,
       organicRec, micronutrientRec] := by
    unfold buildRecs
    norm_num
  have hout : generateRecommendations ⟨20, 10, 15, 5, 2, "wheat"⟩ =
      [nitrogenRec ⟨20, 10, 15, 5, 2, "wheat"⟩,
       phosphorusRec ⟨20, 10, 15, 5, 2, "wheat"⟩,
       potassiumRec ⟨20, 10, 15, 5, 2, "wheat"⟩,
       limeRec ⟨20, 10, 15, 5, 2, "wheat"⟩,
       organicRec, micronutrientRec] := by
    unfold generateRecommendations
    rw [hb]
    norm_num [sortRecs_cons, sortRecs_nil, insertRec_nil, insertRec_cons,
      nitrogenRec, phosphorusRec, potassiumRec, limeRec, organicRec,
      micronutrientRec, priorityRank]
  refine ⟨?_, ?_, ?_⟩
  · rw [hout]
    norm_num [nitrogenRec, phosphorusRec, potassiumRec, limeRec, organicRec,
      micronutrientRec]
  · rw [hout]
    rfl
  · exact pairwise_sortRecs _

theorem trend_if_iff (x avg : ℚ) (hnn : 0 ≤ avg) :
    ((if x > avg * 1.05 then Trend.up
      else if x < avg * 0.95 then Trend.down else Trend.stable) = Trend.up
        ↔ x > avg * 1.05) ∧
    ((if x > avg * 1.05 then Trend.up
      else if x < avg * 0.95 then Trend.down else Trend.stable) = Trend.down
        ↔ x < avg * 0.95) ∧
    ((if x > avg * 1.05 then Trend.up
      else if x < avg * 0.95 then Trend.down else Trend.stable) =
        Trend.stable ↔ (avg * 0.95 ≤ x ∧ x ≤ avg * 1.05)) := by
  by_cases h1 : x > avg * 1.05
  · rw [if_pos h1]
    refine ⟨iff_of_true rfl h1, iff_of_false (by simp) ?_,
      iff_of_false (by simp) ?_⟩
    · intro hc
      nlinarith
    · intro hc
      nlinarith [hc.2]
  · rw [if_neg h1]
    by_cases h2 : x < avg * 0.95
    · rw [if_pos h2]
      refine ⟨iff_of_false (by simp) h1, iff_of_true rfl h2,
        iff_of_false (by simp) ?_⟩
      intro hc
      nlinarith [hc.1]
    · rw [if_neg h2]
      exact ⟨iff_of_false (by simp) h1, iff_of_false (by simp) h2,
        iff_of_true rfl ⟨le_of_not_lt h2, le_of_not_lt h1⟩⟩

/-- C9.  For every crop group whose date-sorted record sequence starts
with four records and whose prior-three mean is nonnegative, the trend is
up exactly when the latest price exceeds 1.05 times the mean of the three
prior records, down exactly when it is below 0.95 times that mean, and
stable exactly in between. -/
theorem trend_thresholds (l : List MarketPrice) (a b c e : MarketPrice)
    (rest : List MarketPrice)
    (hs : sortByDateDesc l = a :: b :: c :: e :: rest)
    (hnn : 0 ≤ (b.price_per_kg + c.price_per_kg + e.price_per_kg) / 3) :
    (analyzeTrend l = .up ↔
      a.price_per_kg >
        (b.price_per_kg + c.price_per_kg + e.price_per_kg) / 3 * 1.05) ∧
    (analyzeTrend l = .down ↔
      a.price_per_kg <
        (b.price_per_kg + c.price_per_kg + e.price_per_kg) / 3 * 0.95) ∧
    (analyzeTrend l = .stable ↔
      ((b.price_per_kg + c.price_per_kg + e.price_per_kg) / 3 * 0.95 ≤
          a.price_per_kg ∧
        a.price_per_kg ≤
          (b.price_per_kg + c.price_per_kg + e.price_per_kg) / 3 * 1.05)) := by
  unfold analyzeTrend
  rw [hs]
  simp only [List.drop_succ_cons, List.drop_zero, List.take_succ_cons,
    List.take_zero, List.map_cons, List.map_nil, List.sum_cons,
    List.sum_nil, List.length_cons, List.length_nil]
  have hde : (b.price_per_kg + (c.price_per_kg + (e.price_per_kg + 0))) /
      ((max 1 (0 + 1 + 1 + 1) : ℕ) : ℚ) =
      (b.price_per_kg + c.price_per_kg + e.price_per_kg) / 3 := by
    norm_num
    ring
  simp only [hde]
  exact trend_if_iff a.price_per_kg _ hnn

/-- Witness for C9: four tomato records, latest 11 against prior mean 10
(ten percent above), giving trend up. -/
theorem trend_thresholds_witness :
    sortByDateDesc
        [⟨"tomato", 11, "m1", 4⟩, ⟨"tomato", 10, "m2", 3⟩,
         ⟨"tomato", 10, "m3", 2⟩, ⟨"tomato", 10, "m4", 1⟩] =
      (⟨"tomato", 11, "m1", 4⟩ : MarketPrice) ::
        (⟨"tomato", 10, "m2", 3⟩ : MarketPrice) ::
        (⟨"tomato", 10, "m3", 2⟩ : MarketPrice) ::
        (⟨"tomato", 10, "m4", 1⟩ : MarketPrice) :: [] ∧
    (0 : ℚ) ≤ ((⟨"tomato", 10, "m2", 3⟩ : MarketPrice).price_per_kg +
      (⟨"tomato", 10, "m3", 2⟩ : MarketPrice).price_per_kg +
      (⟨"tomato", 10, "m4", 1⟩ : MarketPrice).price_per_kg) / 3 ∧
    ((analyzeTrend
        [⟨"tomato", 11, "m1", 4⟩, ⟨"tomato", 10, "m2", 3⟩,
         ⟨"tomato", 10, "m3", 2⟩, ⟨"tomato", 10, "m4", 1⟩] = .up ↔
      (⟨"tomato", 11, "m1", 4⟩ : MarketPrice).price_per_kg >
        ((⟨"tomato", 10, "m2", 3⟩ : MarketPrice).price_per_kg +
          (⟨"tomato", 10, "m3", 2⟩ : MarketPrice).price_per_kg +
          (⟨"tomato", 10, "m4", 1⟩ : MarketPrice).price_per_kg) / 3 * 1.05) ∧
    (analyzeTrend
        [⟨"tomato", 11, "m1", 4⟩, ⟨"tomato", 10, "m2", 3⟩,
         ⟨"tomato", 10, "m3", 2⟩, ⟨"tomato", 10, "m4", 1⟩] = .down ↔
      (⟨"tomato", 11, "m1", 4⟩ : MarketPrice).price_per_kg <
        ((⟨"tomato", 10, "m2", 3⟩ : MarketPrice).price_per_kg +
          (⟨"tomato", 10, "m3", 2⟩ : MarketPrice).price_per_kg +
          (⟨"tomato", 10, "m4", 1⟩ : MarketPrice).price_per_kg) / 3 * 0.95) ∧
    (analyzeTrend
        [⟨"tomato", 11, "m1", 4⟩, ⟨"tomato", 10, "m2", 3⟩,
         ⟨"tomato", 10, "m3", 2⟩, ⟨"tomato", 10, "m4", 1⟩] = .stable ↔
      (((⟨"tomato", 10, "m2", 3⟩ : MarketPrice).price_per_kg +
          (⟨"tomato", 10, "m3", 2⟩ : MarketPrice).price_per_kg +
          (⟨"tomato", 10, "m4", 1⟩ : MarketPrice).price_per_kg) / 3 * 0.95 ≤
          (⟨"tomato", 11, "m1", 4⟩ : MarketPrice).price_per_kg ∧
        (⟨"tomato", 11, "m1", 4⟩ : MarketPrice).price_per_kg ≤
          ((⟨"tomato", 10, "m2", 3⟩ : MarketPrice).price_per_kg +
            (⟨"tomato", 10, "m3", 2⟩ : MarketPrice).price_per_kg +
            (⟨"tomato", 10, "m4", 1⟩ : MarketPrice).price_per_kg) / 3 *
              1.05))) :=
  ⟨by norm_num [sortByDateDesc, insertByDate], by norm_num,
   trend_thresholds
     [⟨"tomato", 11, "m1", 4⟩, ⟨"tomato", 10, "m2", 3⟩,
      ⟨"tomato", 10, "m3", 2⟩, ⟨"tomato", 10, "m4", 1⟩]
     ⟨"tomato", 11, "m1", 4⟩ ⟨"tomato", 10, "m2", 3⟩
     ⟨"tomato", 10, "m3", 2⟩ ⟨"tomato", 10, "m4", 1⟩ []
     (by norm_num [sortByDateDesc, insertByDate]) (by norm_num)⟩

/-- C10.  A crop with a single record of strictly positive price per kg
is reported trending up: the prior-record average is the empty sum over
the denominator clamped to 1, hence 0, and any positive price exceeds
1.05 times 0. -/
theorem single_record_trend_up (r : MarketPrice)
    (h : 0 < r.price_per_kg) : analyzeTrend [r] = .up := by
  unfold analyzeTrend
  have hs : sortByDateDesc [r] = [r] := rfl
  rw [hs]
  simp only [List.drop_succ_cons, List.drop_zero, List.take_nil,
    List.map_nil, List.sum_nil, List.length_nil]
  have hde : (0 : ℚ) / ((max 1 0 : ℕ) : ℚ) = 0 := by norm_num
  simp only [hde]
  exact (trend_if_iff r.price_per_kg 0 le_rfl).1.mpr (by linarith)

/-- Witness for C10 at a single record of price 5. -/
theorem single_record_trend_up_witness :
    (0 : ℚ) < (⟨"rice", 5, "m1", 7⟩ : MarketPrice).price_per_kg ∧
    analyzeTrend [⟨"rice", 5, "m1", 7⟩] = .up :=
  ⟨by norm_num, single_record_trend_up ⟨"rice", 5, "m1", 7⟩ (by norm_num)⟩

end CropAdvisor
